import Mathlib

/-!
Shallow embedding of the Film frame-accumulation subsystem of mitsuba2
(src/include/mitsuba/render/film.h).

The header declares `Film` as an abstract base class: `prepare`, `put`,
`develop`, `reweight`, the sub-region `develop` overload and `bitmap` are
pure virtual, and the body of `set_crop_window` lives in a translation
unit that is not part of the source tree provided.  The data members
(`m_size`, `m_crop_size`, `m_crop_offset`, `m_high_quality_edges`,
`m_filter`) and the inline accessors are in the header and are embedded
directly; the virtual operations are modelled from the specification
(marked `Modelled from the spec:` below), except where the header's own
documentation fixes their behaviour (notably `reweight`, whose header
comment reads "Overwrite the weight channel to the given value").

Pixel coordinates are pairs of integers (`ScalarPoint2i` /
`ScalarVector2i` are 2-vectors of 32-bit ints; the claims never approach
the 2^31 boundary, so plain `ℤ` is used), and accumulated radiance /
weight values are rationals standing in for the floating-point
accumulation (division and the weight-zero guard are exact in `ℚ`).
-/

set_option autoImplicit false

namespace Mitsuba

/-- Reconstruction filter collaborator: the Film only consumes its finite
support radius (spec §2, §6), used to size the block border
`ceil(filter.support_radius)`. -/
structure ReconstructionFilter where
  support_radius : ℚ
deriving DecidableEq

/-- Bitmap collaborator: a raster target with per-pixel per-channel
values; `develop` writes into it (spec §2, §6). -/
structure Bitmap where
  data : ℤ × ℤ → ℕ → ℚ

/-- ImageBlock collaborator: a bounded rectangular accumulation buffer
covering one tile (`offset`, `bsize`) expanded by `border` on each side,
with value channels `data` and a distinguished weight channel `wdata`
shaped like the Film's channel layout (spec §2, §3). -/
structure ImageBlock where
  offset : ℤ × ℤ
  bsize : ℤ × ℤ
  border : ℤ
  channels : List String
  data : ℤ × ℤ → ℕ → ℚ
  wdata : ℤ × ℤ → ℚ

/-- Film state: the data members of class Film in film.h (`m_size`,
`m_crop_size`, `m_crop_offset`, `m_high_quality_edges`, `m_filter`),
the channel layout fixed by `prepare`, plus the shared accumulated
buffer (value channels and weight channel) owned by the concrete
representation.  `explicit_storage` is modelled from the spec: concrete
Film representations differ in whether they keep an explicit random
access representation of the image (spec §4.3, §9); this capability
decides the boolean result of the sub-region `develop`. -/
@[ext]
structure Film where
  size : ℤ × ℤ
  crop_size : ℤ × ℤ
  crop_offset : ℤ × ℤ
  high_quality_edges : Bool
  filter : ReconstructionFilter
  channels : List String
  explicit_storage : Bool
  buffer : ℤ × ℤ → ℕ → ℚ
  weight : ℤ × ℤ → ℚ

/-- Footprint membership of a pixel in a block: the tile rectangle
expanded by the border on each side (spec §3, ImageBlock contract). -/
def ImageBlock.contains (B : ImageBlock) (p : ℤ × ℤ) : Bool :=
  decide (B.offset.1 - B.border ≤ p.1) &&
  decide (p.1 < B.offset.1 + B.bsize.1 + B.border) &&
  decide (B.offset.2 - B.border ≤ p.2) &&
  decide (p.2 < B.offset.2 + B.bsize.2 + B.border)

/-- Border of the shared buffer: `ceil(filter.support_radius)` when
high-quality edge handling is active, otherwise 0 (spec §3, §4.2). -/
def Film.border_size (F : Film) : ℤ :=
  if F.high_quality_edges then ⌈F.filter.support_radius⌉ else 0

/-- Addressable range of the shared accumulated buffer: the full `size`
expanded by the border when `high_quality_edges` is active
(spec §4.2 merge rule). -/
def Film.addressable (F : Film) (p : ℤ × ℤ) : Bool :=
  decide (-F.border_size ≤ p.1) &&
  decide (p.1 < F.size.1 + F.border_size) &&
  decide (-F.border_size ≤ p.2) &&
  decide (p.2 < F.size.2 + F.border_size)

/-- Modelled from the spec: `Film::put` is pure virtual in film.h (its
concrete bodies are not under the provided tree).  Spec §4.2 merge rule:
`shared[p][c] += block[p][c]` for every pixel `p` in the block's
footprint intersected with the shared buffer's addressable range and
every channel `c`, including the weight channel; pixels outside that
intersection are untouched. -/
def Film.put (F : Film) (B : ImageBlock) : Film :=
  { F with
    buffer := fun p c =>
      if B.contains p && F.addressable p then F.buffer p c + B.data p c
      else F.buffer p c,
    weight := fun p =>
      if B.contains p && F.addressable p then F.weight p + B.wdata p
      else F.weight p }

/-- Error kind raised by an invalid crop window (spec §7,
ConfigurationError row). -/
inductive ConfigurationError where
  | invalidCropWindow
deriving DecidableEq

/-- Modelled from the spec: the body of `Film::set_crop_window` is
declared in film.h but defined in a translation unit not under the
provided tree.  Spec §4.1: validates `offset + size ≤ full size` and
`size.x, size.y > 0`; on violation fails with a ConfigurationError and
leaves the previous crop window unchanged (transactional update); on
success replaces both fields.  The call is modelled state-passing style:
the result pairs the raised error (if any) with the post-state. -/
def Film.set_crop_window (F : Film) (crop_offset : ℤ × ℤ)
    (crop_size : ℤ × ℤ) : Option ConfigurationError × Film :=
  if crop_size.1 ≤ 0 ∨ crop_size.2 ≤ 0 ∨
     F.size.1 < crop_offset.1 + crop_size.1 ∨
     F.size.2 < crop_offset.2 + crop_size.2 then
    (some ConfigurationError.invalidCropWindow, F)
  else
    (none, { F with crop_offset := crop_offset, crop_size := crop_size })

/-- Overwrite semantics, taken from the header's own documentation of
the (pure virtual) `Film::reweight`: "Overwrite the weight channel to
the given value" (src/include/mitsuba/render/film.h, lines 34-35).  The
weight channel of the shared buffer is set to the given value at every
pixel; the accumulated value channels are untouched. -/
def Film.reweight (F : Film) (w : ℚ) : Film :=
  { F with weight := fun _ => w }

/-- Modelled from the spec: `Film::develop` is pure virtual in film.h.
Spec §4.3 normalization rule for one pixel and channel: `value/weight`,
with `weight == 0` mapped to a defined zero value rather than producing
NaN or infinity. -/
def Film.develop_px (F : Film) (p : ℤ × ℤ) (c : ℕ) : ℚ :=
  if F.weight p = 0 then 0 else F.buffer p c / F.weight p

/-- Modelled from the spec: the full `develop()` / `bitmap()` result, a
raster of the normalized crop-window region; pixel `p` of the output is
the normalized shared buffer at `crop_offset + p` (spec §4.3). -/
def Film.develop_full (F : Film) : Bitmap :=
  ⟨fun p c => F.develop_px (F.crop_offset.1 + p.1, F.crop_offset.2 + p.2) c⟩

/-- Membership of a pixel in the axis-aligned rectangle with corner `t`
and extent `s`. -/
def inRect (t s p : ℤ × ℤ) : Bool :=
  decide (t.1 ≤ p.1) && decide (p.1 < t.1 + s.1) &&
  decide (t.2 ≤ p.2) && decide (p.2 < t.2 + s.2)

/-- Modelled from the spec: the sub-region overload
`Film::develop(offset, size, target_offset, target)` is pure virtual in
film.h.  Spec §4.3: develops only a sub-rectangle of the crop window,
writing into the caller-provided Bitmap at `target_offset`, returning
`true` upon success; when the concrete representation keeps no explicit
random-access image (`explicit_storage = false`) it returns `false`
(a capability signal, not an error) and the target is left unmodified. -/
def Film.develop_sub (F : Film) (offset size target_offset : ℤ × ℤ)
    (target : Bitmap) : Bool × Bitmap :=
  if F.explicit_storage then
    (true, ⟨fun p c =>
      if inRect target_offset size p then
        F.develop_px (F.crop_offset.1 + (offset.1 + (p.1 - target_offset.1)),
                      F.crop_offset.2 + (offset.2 + (p.2 - target_offset.2))) c
      else target.data p c⟩)
  else (false, target)

/-- Effect of one `put` call on the pair (film state, argument block).
The interface receives the block through a pointer to const
(`virtual void put(const ImageBlock *block)`, film.h lines 28-29), so
the block component of the post-state is the argument itself. -/
def Film.put_call (F : Film) (B : ImageBlock) : Film × ImageBlock :=
  (F.put B, B)

/-- Effect of one sub-region `develop` call on the Film: the overload is
declared as a const member function (film.h lines 46-50), so the film
component of the post-state is the receiver itself; the call produces
only the boolean result and the written target. -/
def Film.develop_sub_call (F : Film) (offset size target_offset : ℤ × ℤ)
    (target : Bitmap) : (Bool × Bitmap) × Film :=
  (F.develop_sub offset size target_offset target, F)

/-- Concrete film used to instantiate the theorems: a 4x4 sensor with full
crop window, box-filter border disabled, an explicit in-memory
representation, and an empty accumulation buffer (the state right after
`prepare`). -/
def film0 : Film :=
  { size := (4, 4), crop_size := (4, 4), crop_offset := (0, 0),
    high_quality_edges := false, filter := ⟨1⟩,
    channels := ["Y", "W"], explicit_storage := true,
    buffer := fun _ _ => 0, weight := fun _ => 0 }

/-- Concrete film whose representation keeps no explicit random-access
image (for example a streaming tiled writer). -/
def filmStream : Film :=
  { film0 with explicit_storage := false }

/-- Concrete film with accumulated value 10 and weight 2 at every pixel
(normalized output 5 everywhere). -/
def filmV10W2 : Film :=
  { film0 with buffer := fun _ _ => 10, weight := fun _ => 2 }

/-- Concrete image block covering the left half of the 4x4 sensor with
value 3 and weight 1 everywhere. -/
def blockL : ImageBlock :=
  { offset := (0, 0), bsize := (2, 4), border := 0,
    channels := ["Y", "W"], data := fun _ _ => 3, wdata := fun _ => 1 }

/-- Concrete image block covering the right half of the 4x4 sensor with
value 7 and weight 1 everywhere; its footprint is disjoint from
`blockL`. -/
def blockR : ImageBlock :=
  { offset := (2, 0), bsize := (2, 4), border := 0,
    channels := ["Y", "W"], data := fun _ _ => 7, wdata := fun _ => 1 }

/-- Concrete all-zero bitmap target. -/
def bm0 : Bitmap := ⟨fun _ _ => 0⟩

/-- Unfolding lemma: the value channels of the shared buffer after a
`put`. -/
theorem put_buffer (F : Film) (B : ImageBlock) (p : ℤ × ℤ) (c : ℕ) :
    (F.put B).buffer p c =
      if B.contains p && F.addressable p then F.buffer p c + B.data p c
      else F.buffer p c := rfl

/-- Unfolding lemma: the weight channel of the shared buffer after a
`put`. -/
theorem put_weight (F : Film) (B : ImageBlock) (p : ℤ × ℤ) :
    (F.put B).weight p =
      if B.contains p && F.addressable p then F.weight p + B.wdata p
      else F.weight p := rfl

/-- A `put` does not change the film's configuration, so the addressable
range is unchanged. -/
theorem put_addressable (F : Film) (B : ImageBlock) (p : ℤ × ℤ) :
    (F.put B).addressable p = F.addressable p := rfl

/-- Merging two blocks in either order yields the same film state: both
orders add the same per-pixel per-channel contributions, and rational
addition is commutative and associative. -/
theorem put_comm (F : Film) (A B : ImageBlock) :
    (F.put A).put B = (F.put B).put A := by
  unfold Film.put
  ext p c
  all_goals simp only [Film.addressable, Film.border_size]
  all_goals split_ifs <;> ring

/-- Folding `put` over a list of blocks is invariant under permutation
of the list. -/
theorem foldl_put_perm {L L' : List ImageBlock} (h : L.Perm L') :
    ∀ F : Film, L.foldl Film.put F = L'.foldl Film.put F := by
  induction h with
  | nil => intro F; rfl
  | cons x _ ih => intro F; simp only [List.foldl_cons]; exact ih (F.put x)
  | swap x y l => intro F; simp only [List.foldl_cons, put_comm]
  | trans _ _ ih1 ih2 => intro F; exact (ih1 F).trans (ih2 F)

/-- C1: merging image blocks commutes — `put(A)` then `put(B)` produces
the same shared accumulated buffer (every pixel and channel, weight
included) as `put(B)` then `put(A)`, and more generally the film after
any sequence of `put` calls is independent of the order of the calls. -/
theorem put_order_independent :
    (∀ (F : Film) (A B : ImageBlock), (F.put A).put B = (F.put B).put A) ∧
    (∀ (F : Film) (L L' : List ImageBlock), L.Perm L' →
      L.foldl Film.put F = L'.foldl Film.put F) :=
  ⟨put_comm, fun F _ _ h => foldl_put_perm h F⟩

/-- Witness for C1: the two concrete half-sensor blocks merged into the
empty film in both orders give the same film. -/
theorem put_order_independent_witness :
    (film0.put blockL).put blockR = (film0.put blockR).put blockL ∧
    [blockL, blockR].foldl Film.put film0 =
      [blockR, blockL].foldl Film.put film0 :=
  ⟨put_order_independent.1 film0 blockL blockR,
   put_order_independent.2 film0 [blockL, blockR] [blockR, blockL]
     (List.Perm.swap blockR blockL [])⟩

/-- C9: `put` never mutates the block it is given — the interface passes
it as a pointer to const, so after the call every footprint field, data
value and weight value of the block is as before. -/
theorem put_leaves_block_unchanged :
    ∀ (F : Film) (B : ImageBlock),
      (F.put_call B).2 = B ∧
      (F.put_call B).2.offset = B.offset ∧
      (F.put_call B).2.bsize = B.bsize ∧
      (F.put_call B).2.border = B.border ∧
      (F.put_call B).2.channels = B.channels ∧
      (∀ (p : ℤ × ℤ) (c : ℕ), (F.put_call B).2.data p c = B.data p c) ∧
      (∀ p : ℤ × ℤ, (F.put_call B).2.wdata p = B.wdata p) :=
  fun _ _ => ⟨rfl, rfl, rfl, rfl, rfl, fun _ _ => rfl, fun _ => rfl⟩

/-- C10: the sub-region develop overload is a read-only operation on the
film — it is a const member function, so the film's size, crop window,
edge flag, filter and shared accumulated buffer are unchanged whether it
returns true or false. -/
theorem develop_sub_leaves_film_unchanged :
    ∀ (F : Film) (o s t : ℤ × ℤ) (bm : Bitmap),
      (F.develop_sub_call o s t bm).2 = F ∧
      (F.develop_sub_call o s t bm).2.size = F.size ∧
      (F.develop_sub_call o s t bm).2.crop_offset = F.crop_offset ∧
      (F.develop_sub_call o s t bm).2.crop_size = F.crop_size ∧
      (F.develop_sub_call o s t bm).2.high_quality_edges =
        F.high_quality_edges ∧
      (F.develop_sub_call o s t bm).2.filter = F.filter ∧
      (∀ (p : ℤ × ℤ) (c : ℕ),
        (F.develop_sub_call o s t bm).2.buffer p c = F.buffer p c) ∧
      (∀ p : ℤ × ℤ, (F.develop_sub_call o s t bm).2.weight p = F.weight p) :=
  fun _ _ _ _ _ => ⟨rfl, rfl, rfl, rfl, rfl, rfl, fun _ _ => rfl, fun _ => rfl⟩

/-- C3: `set_crop_window(offset, size)` with `offset + size` exceeding
the full sensor size, or with a non-positive size component, fails with
a ConfigurationError and leaves the previously stored crop offset and
crop size exactly as before the call (transactional update). -/
theorem set_crop_window_invalid :
    ∀ (F : Film) (o s : ℤ × ℤ),
      (s.1 ≤ 0 ∨ s.2 ≤ 0 ∨ F.size.1 < o.1 + s.1 ∨ F.size.2 < o.2 + s.2) →
      F.set_crop_window o s =
        (some ConfigurationError.invalidCropWindow, F) ∧
      (F.set_crop_window o s).2.crop_offset = F.crop_offset ∧
      (F.set_crop_window o s).2.crop_size = F.crop_size := by
  intro F o s h
  unfold Film.set_crop_window
  rw [if_pos h]
  exact ⟨rfl, rfl, rfl⟩

/-- Witness for C3: on the 4x4 film, requesting offset (3,3) with size
(2,2) exceeds the sensor and the crop window is untouched. -/
theorem set_crop_window_invalid_witness :
    ((2:ℤ) ≤ 0 ∨ (2:ℤ) ≤ 0 ∨ film0.size.1 < 3 + 2 ∨ film0.size.2 < 3 + 2) ∧
    film0.set_crop_window (3, 3) (2, 2) =
      (some ConfigurationError.invalidCropWindow, film0) ∧
    (film0.set_crop_window (3, 3) (2, 2)).2.crop_offset = film0.crop_offset ∧
    (film0.set_crop_window (3, 3) (2, 2)).2.crop_size = film0.crop_size := by
  have h : ((2:ℤ) ≤ 0 ∨ (2:ℤ) ≤ 0 ∨ film0.size.1 < 3 + 2 ∨
      film0.size.2 < 3 + 2) := by
    right; right; left; decide
  exact ⟨h, set_crop_window_invalid film0 (3, 3) (2, 2) h⟩

/-- C4: for every valid window — `offset + size ≤ full size` and both
size components positive — `set_crop_window` succeeds (no error raised)
and reading the crop offset and crop size back returns exactly the
requested window. -/
theorem set_crop_window_valid :
    ∀ (F : Film) (o s : ℤ × ℤ),
      o.1 + s.1 ≤ F.size.1 → o.2 + s.2 ≤ F.size.2 → 0 < s.1 → 0 < s.2 →
      (F.set_crop_window o s).1 = none ∧
      (F.set_crop_window o s).2.crop_offset = o ∧
      (F.set_crop_window o s).2.crop_size = s := by
  intro F o s h1 h2 h3 h4
  unfold Film.set_crop_window
  rw [if_neg]
  · exact ⟨rfl, rfl, rfl⟩
  · push_neg
    exact ⟨by omega, by omega, by omega, by omega⟩

/-- Witness for C4: setting the window to offset (1,1), size (2,2) on
the 4x4 film succeeds and reads back exactly. -/
theorem set_crop_window_valid_witness :
    ((1:ℤ) + 2 ≤ film0.size.1) ∧ ((1:ℤ) + 2 ≤ film0.size.2) ∧
    ((0:ℤ) < 2) ∧
    (film0.set_crop_window (1, 1) (2, 2)).1 = none ∧
    (film0.set_crop_window (1, 1) (2, 2)).2.crop_offset = (1, 1) ∧
    (film0.set_crop_window (1, 1) (2, 2)).2.crop_size = (2, 2) := by
  refine ⟨by decide, by decide, by decide, ?_⟩
  exact set_crop_window_valid film0 (1, 1) (2, 2) (by decide) (by decide)
    (by decide) (by decide)

/-- C5 counterexample: at pixel (0,0) of a film holding accumulated
value 10 and weight 2 (normalized output 5), `reweight(1/2)` leaves the
weight channel at 1/2 — not 1, as the claim states — and the normalized
output becomes 20, not 10: the header documents `reweight` as
overwriting the weight channel to the given value, not rescaling it. -/
theorem reweight_rescale_claim_false :
    Film.develop_px filmV10W2 (0, 0) 0 = 5 ∧
    (filmV10W2.reweight (1/2)).weight (0, 0) = 1/2 ∧
    (filmV10W2.reweight (1/2)).weight (0, 0) ≠ 1 ∧
    Film.develop_px (filmV10W2.reweight (1/2)) (0, 0) 0 = 20 ∧
    Film.develop_px (filmV10W2.reweight (1/2)) (0, 0) 0 ≠ 10 := by
  norm_num [filmV10W2, film0, Film.reweight, Film.develop_px]

/-- C5 amended: `reweight(w)` overwrites the weight channel of the
shared buffer to `w` at every pixel and leaves every accumulated value
channel unchanged; concretely, for a pixel with accumulated value 10
and weight 2 (normalized output 5), `reweight(0.5)` yields weight 0.5
and normalized output 20, while developing an unmodified duplicate
still yields 5. -/
theorem reweight_overwrites_weight :
    (∀ (F : Film) (w : ℚ) (p : ℤ × ℤ), (F.reweight w).weight p = w) ∧
    (∀ (F : Film) (w : ℚ) (p : ℤ × ℤ) (c : ℕ),
      (F.reweight w).buffer p c = F.buffer p c) ∧
    Film.develop_px filmV10W2 (0, 0) 0 = 5 ∧
    (filmV10W2.reweight (1/2)).weight (0, 0) = 1/2 ∧
    Film.develop_px (filmV10W2.reweight (1/2)) (0, 0) 0 = 20 := by
  refine ⟨fun _ _ _ => rfl, fun _ _ _ _ => rfl, ?_, ?_, ?_⟩ <;>
    norm_num [filmV10W2, film0, Film.reweight, Film.develop_px]

/-- C6: a pixel whose weight channel equals 0 develops to the defined
zero value (the normalization is guarded, so no division by zero is
attempted); in particular, on a film where no `put` has accumulated any
weight, the full develop yields 0 at every pixel of the crop region. -/
theorem develop_zero_weight :
    (∀ (F : Film) (p : ℤ × ℤ) (c : ℕ),
      F.weight p = 0 → F.develop_px p c = 0) ∧
    (∀ F : Film, (∀ q, F.weight q = 0) →
      ∀ (p : ℤ × ℤ) (c : ℕ), F.develop_full.data p c = 0) := by
  constructor
  · intro F p c h
    unfold Film.develop_px
    rw [if_pos h]
  · intro F h p c
    unfold Film.develop_full Film.develop_px
    simp only [h, if_pos]

/-- Witness for C6: the freshly prepared film has weight 0 at pixel
(1,1) and develops to 0 there, both per-pixel and through the full
develop raster. -/
theorem develop_zero_weight_witness :
    film0.weight (1, 1) = 0 ∧
    film0.develop_px (1, 1) 0 = 0 ∧
    film0.develop_full.data (1, 1) 0 = 0 :=
  ⟨rfl, develop_zero_weight.1 film0 (1, 1) 0 rfl,
   develop_zero_weight.2 film0 (fun _ => rfl) (1, 1) 0⟩

/-- C7: when the representation has an explicit random-access image, the
sub-region develop returns true and every pixel it writes into the
target rectangle equals the corresponding pixel of a full develop; when
the representation cannot produce arbitrary sub-regions it returns
false — not an error — and the target bitmap is unmodified. -/
theorem develop_sub_capability :
    ∀ (F : Film) (o s t : ℤ × ℤ) (bm : Bitmap),
      (F.explicit_storage = true →
        (F.develop_sub o s t bm).1 = true ∧
        (∀ (p : ℤ × ℤ) (c : ℕ), inRect t s p = true →
          (F.develop_sub o s t bm).2.data p c =
            F.develop_full.data (o.1 + (p.1 - t.1), o.2 + (p.2 - t.2)) c) ∧
        (∀ (p : ℤ × ℤ) (c : ℕ), inRect t s p = false →
          (F.develop_sub o s t bm).2.data p c = bm.data p c)) ∧
      (F.explicit_storage = false →
        (F.develop_sub o s t bm).1 = false ∧
        (F.develop_sub o s t bm).2 = bm) := by
  intro F o s t bm
  constructor
  · intro h
    unfold Film.develop_sub
    rw [if_pos h]
    refine ⟨rfl, ?_, ?_⟩
    · intro p c hp
      show (if inRect t s p = true then _ else _) = _
      rw [if_pos hp]
      rfl
    · intro p c hp
      show (if inRect t s p = true then _ else _) = _
      rw [if_neg (by simp [hp])]
  · intro h
    unfold Film.develop_sub
    rw [if_neg (by simp [h])]
    exact ⟨rfl, rfl⟩

/-- Witness for C7: the explicit-storage film returns true and agrees
with the full develop at pixel (1,1); the streaming film returns false
and hands back the untouched target. -/
theorem develop_sub_capability_witness :
    film0.explicit_storage = true ∧
    (film0.develop_sub (0, 0) (2, 2) (0, 0) bm0).1 = true ∧
    inRect (0, 0) (2, 2) ((1 : ℤ), (1 : ℤ)) = true ∧
    (film0.develop_sub (0, 0) (2, 2) (0, 0) bm0).2.data (1, 1) 0 =
      film0.develop_full.data (0 + (1 - 0), 0 + (1 - 0)) 0 ∧
    filmStream.explicit_storage = false ∧
    (filmStream.develop_sub (0, 0) (2, 2) (0, 0) bm0).1 = false ∧
    (filmStream.develop_sub (0, 0) (2, 2) (0, 0) bm0).2 = bm0 := by
  refine ⟨rfl, ?_, by decide, ?_, rfl, ?_, ?_⟩
  · exact ((develop_sub_capability film0 (0, 0) (2, 2) (0, 0) bm0).1 rfl).1
  · exact ((develop_sub_capability film0 (0, 0) (2, 2) (0, 0) bm0).1
      rfl).2.1 (1, 1) 0 (by decide)
  · exact ((develop_sub_capability filmStream (0, 0) (2, 2) (0, 0)
      bm0).2 rfl).1
  · exact ((develop_sub_capability filmStream (0, 0) (2, 2) (0, 0)
      bm0).2 rfl).2

/-- C2: for a block whose channel layout matches the film's, `put` adds
the block's value and weight to the shared buffer at every pixel in the
block footprint intersected with the addressable range and changes
nothing elsewhere; consequently merging two blocks with disjoint
footprints and weight 1 into an empty film and developing reproduces
each block's values in its own region, in either merge order, with no
cross-contamination. -/
theorem put_merge_rule :
    (∀ (F : Film) (B : ImageBlock), B.channels = F.channels →
      ∀ (p : ℤ × ℤ) (c : ℕ),
        ((B.contains p && F.addressable p) = true →
          (F.put B).buffer p c = F.buffer p c + B.data p c ∧
          (F.put B).weight p = F.weight p + B.wdata p) ∧
        ((B.contains p && F.addressable p) = false →
          (F.put B).buffer p c = F.buffer p c ∧
          (F.put B).weight p = F.weight p)) ∧
    (∀ (F : Film) (A B : ImageBlock),
      (∀ (q : ℤ × ℤ) (c : ℕ), F.buffer q c = 0) →
      (∀ q : ℤ × ℤ, F.weight q = 0) →
      A.channels = F.channels → B.channels = F.channels →
      (∀ q : ℤ × ℤ, ¬(A.contains q = true ∧ B.contains q = true)) →
      (∀ q : ℤ × ℤ, A.contains q = true → A.wdata q = 1) →
      ∀ (p : ℤ × ℤ) (c : ℕ),
        A.contains p = true → F.addressable p = true →
        Film.develop_px ((F.put A).put B) p c = A.data p c ∧
        Film.develop_px ((F.put B).put A) p c = A.data p c) := by
  constructor
  · intro F B _ p c
    refine ⟨fun h => ⟨?_, ?_⟩, fun h => ⟨?_, ?_⟩⟩
    · rw [put_buffer, if_pos h]
    · rw [put_weight, if_pos h]
    · rw [put_buffer, h]
      simp
    · rw [put_weight, h]
      simp
  · intro F A B hbuf hw _ _ hdisj hw1 p c hA ha
    have hB : B.contains p = false := by
      cases hBc : B.contains p
      · rfl
      · exact absurd ⟨hA, hBc⟩ (hdisj p)
    have haA : (A.contains p && F.addressable p) = true := by
      rw [hA, ha]
      rfl
    have hb1 : ((F.put A).put B).buffer p c = A.data p c := by
      rw [put_buffer, put_addressable, hB]
      simp only [Bool.false_and, Bool.false_eq_true, if_false]
      rw [put_buffer, haA, if_pos rfl, hbuf, zero_add]
    have hw2 : ((F.put A).put B).weight p = 1 := by
      rw [put_weight, put_addressable, hB]
      simp only [Bool.false_and, Bool.false_eq_true, if_false]
      rw [put_weight, haA, if_pos rfl, hw, zero_add, hw1 p hA]
    have hb1' : ((F.put B).put A).buffer p c = A.data p c := by
      rw [put_buffer, put_addressable, haA, if_pos rfl]
      rw [put_buffer, hB]
      simp only [Bool.false_and, Bool.false_eq_true, if_false]
      rw [hbuf, zero_add]
    have hw2' : ((F.put B).put A).weight p = 1 := by
      rw [put_weight, put_addressable, haA, if_pos rfl]
      rw [put_weight, hB]
      simp only [Bool.false_and, Bool.false_eq_true, if_false]
      rw [hw, zero_add, hw1 p hA]
    constructor
    · unfold Film.develop_px
      rw [hb1, hw2, if_neg one_ne_zero, div_one]
    · unfold Film.develop_px
      rw [hb1', hw2', if_neg one_ne_zero, div_one]

/-- Witness for C2: merging the two disjoint half-sensor blocks into the
empty film: `put blockL` adds value 3 and weight 1 at pixel (0,0), and
developing after both merges, in either order, returns blockL's value 3
at (0,0). -/
theorem put_merge_rule_witness :
    blockL.channels = film0.channels ∧
    (blockL.contains (0, 0) && film0.addressable (0, 0)) = true ∧
    (film0.put blockL).buffer (0, 0) 0 =
      film0.buffer (0, 0) 0 + blockL.data (0, 0) 0 ∧
    (film0.put blockL).weight (0, 0) =
      film0.weight (0, 0) + blockL.wdata (0, 0) ∧
    Film.develop_px ((film0.put blockL).put blockR) (0, 0) 0 =
      blockL.data (0, 0) 0 ∧
    Film.develop_px ((film0.put blockR).put blockL) (0, 0) 0 =
      blockL.data (0, 0) 0 := by
  have hdisj : ∀ q : ℤ × ℤ,
      ¬(blockL.contains q = true ∧ blockR.contains q = true) := by
    intro q hq
    obtain ⟨h1, h2⟩ := hq
    simp only [ImageBlock.contains, blockL, blockR, Bool.and_eq_true,
      decide_eq_true_eq] at h1 h2
    omega
  have hmain := put_merge_rule.2 film0 blockL blockR
    (fun _ _ => rfl) (fun _ => rfl) rfl rfl hdisj
    (fun _ _ => rfl) (0, 0) 0 (by decide) (by decide)
  have hfirst := (put_merge_rule.1 film0 blockL rfl (0, 0) 0).1 (by decide)
  exact ⟨rfl, by decide, hfirst.1, hfirst.2, hmain.1, hmain.2⟩

end Mitsuba
